import Mathlib

/-!
Verification of the fast-path router planner
(src/backend/distributed/planner/fast_path_router_planner.c).

The file shallowly embeds the classifier `FastPathRouterQuery` together with
its helpers `ColumnAppearsMultipleTimes`, `ConjunctionContainsColumnFilter`
and `DistKeyInSimpleOpExpression`, and the plan synthesizer
`GeneratePlaceHolderPlannedStmt`.  PostgreSQL parse-tree nodes are embedded
as a tagged sum type; the catalog/metadata collaborators
(`GetCitusTableCacheEntry`, `PartitionColumn`, `OperatorImplementsEquality`)
are modelled as a read-only oracle record, following the collaborator
interfaces the specification gives for them.  The C functions communicate
the recorded distribution-key value through a `Node **` out parameter that
callers initialize to `NULL`; here that slot is threaded explicitly as an
`Option Node` argument and result.
-/

namespace Citus

/-- Command kind of a parsed query (PostgreSQL `CmdType`, restricted to the
kinds this planner distinguishes). -/
inductive CmdType where
  | select
  | insert
  | update
  | delete
  | utility
  deriving DecidableEq

/-- Column reference (PostgreSQL `Var`): range-table index, attribute
number and declared type.  `equal()` on two `Var` nodes is structural
equality of these fields. -/
structure Var where
  varno : Nat
  varattno : Nat
  vartype : Nat
  deriving DecidableEq

/-- Constant literal (PostgreSQL `Const`): declared type, null flag and
value datum. -/
structure Const where
  consttype : Nat
  constisnull : Bool
  constvalue : Nat
  deriving DecidableEq

/-- Kind of a `Param` node.  `external` is `PARAM_EXTERN` (a parameter
supplied from outside the query, bound at execute time); `exec` stands for
every other kind. -/
inductive ParamKind where
  | external
  | exec
  deriving DecidableEq

/-- Parameter reference (PostgreSQL `Param`). -/
structure Param where
  paramkind : ParamKind
  paramid : Nat
  paramtype : Nat
  deriving DecidableEq

/-- Boolean expression kind (PostgreSQL `BoolExprType`). -/
inductive BoolExprType where
  | andExpr
  | orExpr
  | notExpr
  deriving DecidableEq

/-- Expression tree node, polymorphic over the variants the classifier
inspects: column reference, constant, parameter, operator expression,
boolean expression, an implicit-AND list of clauses (PostgreSQL `List`
quals), and an opaque tag for every other node shape (rejected wholesale
by the walk, so its internal structure is irrelevant). -/
inductive Node where
  | var (v : Var)
  | const (c : Const)
  | param (p : Param)
  | opExpr (opno : Nat) (args : List Node)
  | boolExpr (boolop : BoolExprType) (args : List Node)
  | nodeList (items : List Node)
  | other (tag : Nat)

/-- Kind of a range-table entry (PostgreSQL `RTEKind`). -/
inductive RTEKind where
  | relation
  | subquery
  | join
  | function
  | values
  | cte
  deriving DecidableEq

/-- Range-table entry: its kind and, for a relation entry, the table's
catalog identifier (OID). -/
structure RangeTblEntry where
  rtekind : RTEKind
  relid : Nat
  deriving DecidableEq

/-- FROM-clause join tree (PostgreSQL `FromExpr`): the from list and the
WHERE-clause qualifier tree (possibly absent). -/
structure FromExpr where
  fromlist : List Node
  quals : Option Node

/-- Target-list entry: the projected expression and its result column
number. -/
structure TargetEntry where
  expr : Node
  resno : Nat

/-- Parsed query, with exactly the attributes `FastPathRouterQuery` and
`GeneratePlaceHolderPlannedStmt` read.  `insertFromSelect` is modelled from
the spec: it stands for the INSERT-from-SELECT shape that the external
`CheckInsertSelectQuery` (insert_select_planner.c, outside this scope)
detects on an INSERT command. -/
structure Query where
  commandType : CmdType
  queryId : Nat
  stmt_len : Nat
  cteList : List Node
  hasSubLinks : Bool
  setOperations : Option Node
  hasTargetSRFs : Bool
  hasModifyingCTE : Bool
  insertFromSelect : Bool
  rtable : List RangeTblEntry
  jointree : Option FromExpr
  targetList : List TargetEntry
  returningList : List TargetEntry

/-- Distribution strategy of a Citus table as classified by the metadata
cache. -/
inductive CitusTableType where
  | hashDistributed
  | rangeDistributed
  | appendDistributed
  | referenceTable
  | citusLocalTable
  deriving DecidableEq

/-- Table-type predicates that `IsCitusTableTypeCacheEntry` is asked about
in this file. -/
inductive CitusTableTypeQuery where
  | RANGE_DISTRIBUTED
  | APPEND_DISTRIBUTED
  | DISTRIBUTED_TABLE
  deriving DecidableEq

/-- Modelled from the spec: the catalog/metadata collaborator, a read-only
oracle exposing `GetDistributionStrategy`, `GetDistributionColumn` and
`OperatorImplementsEquality` for the duration of one planning pass. -/
structure Catalog where
  tableType : Nat → CitusTableType
  partitionColumn : Nat → Option Var
  opImplementsEquality : Nat → Bool

/-- Modelled from the spec: `GetCitusTableCacheEntry` (metadata_cache.c,
outside this scope) looks the table up in the catalog oracle; the cache
entry is represented by the table's distribution strategy, which is all
this planner reads from it. -/
def GetCitusTableCacheEntry (cat : Catalog) (relationId : Nat) : CitusTableType :=
  cat.tableType relationId

/-- Modelled from the spec: `IsCitusTableTypeCacheEntry` (metadata_cache.c,
outside this scope) tests a cache entry against a table-type predicate;
`DISTRIBUTED_TABLE` covers the hash-, range- and append-distributed
strategies. -/
def IsCitusTableTypeCacheEntry (cacheEntry : CitusTableType) :
    CitusTableTypeQuery → Bool
  | CitusTableTypeQuery.RANGE_DISTRIBUTED =>
      cacheEntry == CitusTableType.rangeDistributed
  | CitusTableTypeQuery.APPEND_DISTRIBUTED =>
      cacheEntry == CitusTableType.appendDistributed
  | CitusTableTypeQuery.DISTRIBUTED_TABLE =>
      cacheEntry == CitusTableType.hashDistributed
        || cacheEntry == CitusTableType.rangeDistributed
        || cacheEntry == CitusTableType.appendDistributed

/-- Modelled from the spec: `PartitionColumn` (outside this scope) returns
the table's distribution column, or nothing for a table replicated to every
node (reference table). -/
def PartitionColumn (cat : Catalog) (relationId : Nat) : Option Var :=
  cat.partitionColumn relationId

/-- Modelled from the spec: `OperatorImplementsEquality` (metadata_cache.c,
outside this scope) asks the catalog whether the operator's registered
semantics are equality for its operand type. -/
def OperatorImplementsEquality (cat : Catalog) (opno : Nat) : Bool :=
  cat.opImplementsEquality opno

/-- Modelled from the spec: `CheckInsertSelectQuery`
(insert_select_planner.c, outside this scope) detects whether the query is
an INSERT command whose rows come from a SELECT. -/
def CheckInsertSelectQuery (query : Query) : Bool :=
  query.commandType == CmdType.insert && query.insertFromSelect

/-- Modelled from the spec: the binary-operator decomposition helper
`BinaryOpExpression` (multi_router_planner.c, outside this scope) splits a
two-argument operator expression into its left and right operands; an
operator expression with a different argument count, or any other node, is
not decomposable (treated as a non-match). -/
def BinaryOpExpression : Node → Option (Node × Node)
  | Node.opExpr _ [leftOperand, rightOperand] => some (leftOperand, rightOperand)
  | _ => none

/-- Modelled from the spec: PostgreSQL `make_ands_explicit` turns an
implicit-AND list of clauses into one expression tree (an empty list
becomes a true boolean constant, a singleton list becomes its sole member,
anything longer becomes an explicit AND node). -/
def make_ands_explicit : List Node → Node
  | [] => Node.const { consttype := 16, constisnull := false, constvalue := 1 }
  | [a] => a
  | l => Node.boolExpr BoolExprType.andExpr l

/-- DistKeyInSimpleOpExpression checks whether the given expression is a
simple operator expression with either (dist_key = param) or
(dist_key = const), the operands possibly in reverse order.  Mirrors
fast_path_router_planner.c:353-420: the cascade of operand-shape cases,
the PARAM_EXTERN and non-null-constant guards, then the recording logic —
a constant is written only when the column is the distribution column, the
types match exactly and the slot is still empty, while a parameter is
written unconditionally once the guards pass.  Returns the C function's
boolean result paired with the state of the `distributionKeyValue` slot. -/
def DistKeyInSimpleOpExpression (clause : Node) (distColumn : Var)
    (distributionKeyValue : Option Node) : Bool × Option Node :=
  match BinaryOpExpression clause with
  | some (Node.var columnInExpr, Node.param paramClause) =>
    if paramClause.paramkind ≠ ParamKind.external then
      (false, distributionKeyValue)
    else
      (distColumn == columnInExpr, some (Node.param paramClause))
  | some (Node.param paramClause, Node.var columnInExpr) =>
    if paramClause.paramkind ≠ ParamKind.external then
      (false, distributionKeyValue)
    else
      (distColumn == columnInExpr, some (Node.param paramClause))
  | some (Node.var columnInExpr, Node.const constantClause) =>
    if constantClause.constisnull then
      (false, distributionKeyValue)
    else if distColumn == columnInExpr
        && distColumn.vartype == constantClause.consttype
        && distributionKeyValue.isNone then
      (true, some (Node.const constantClause))
    else
      (distColumn == columnInExpr, distributionKeyValue)
  | some (Node.const constantClause, Node.var columnInExpr) =>
    if constantClause.constisnull then
      (false, distributionKeyValue)
    else if distColumn == columnInExpr
        && distColumn.vartype == constantClause.consttype
        && distributionKeyValue.isNone then
      (true, some (Node.const constantClause))
    else
      (distColumn == columnInExpr, distributionKeyValue)
  | _ => (false, distributionKeyValue)

mutual

/-- ConjunctionContainsColumnFilter returns true if the node contains an
exact-match (equality) expression on the provided column that is ANDed with
the rest of the tree.  Mirrors fast_path_router_planner.c:291-343: an
operator expression is tested by `DistKeyInSimpleOpExpression` and then by
the operator-equality oracle; a boolean expression is descended only when
it is an AND, succeeding on the first matching conjunct; every other node
fails.  The slot is threaded through exactly as the C `Node **` out
parameter is. -/
def ConjunctionContainsColumnFilter (cat : Catalog) (node : Node)
    (column : Var) (distributionKeyValue : Option Node) : Bool × Option Node :=
  match node with
  | Node.opExpr opno args =>
    let r := DistKeyInSimpleOpExpression (Node.opExpr opno args) column
        distributionKeyValue
    if !r.1 then (false, r.2)
    else (OperatorImplementsEquality cat opno, r.2)
  | Node.boolExpr boolop args =>
    if boolop ≠ BoolExprType.andExpr then (false, distributionKeyValue)
    else conjunctionWalkArgs cat args column distributionKeyValue
  | _ => (false, distributionKeyValue)

/-- The `foreach` loop over an AND node's argument list inside
`ConjunctionContainsColumnFilter` (fast_path_router_planner.c:330-339):
recurse into each conjunct in order, returning true as soon as one
matches, and falling through to false otherwise. -/
def conjunctionWalkArgs (cat : Catalog) (args : List Node) (column : Var)
    (distributionKeyValue : Option Node) : Bool × Option Node :=
  match args with
  | [] => (false, distributionKeyValue)
  | argumentNode :: rest =>
    let r := ConjunctionContainsColumnFilter cat argumentNode column
        distributionKeyValue
    if r.1 then (true, r.2)
    else conjunctionWalkArgs cat rest column r.2

end

/-- The C walk entry point guards against a NULL node
(fast_path_router_planner.c:294-297); an absent qualifier tree fails the
walk with the slot untouched. -/
def ConjunctionContainsColumnFilterOpt (cat : Catalog) (node : Option Node)
    (column : Var) (distributionKeyValue : Option Node) : Bool × Option Node :=
  match node with
  | none => (false, distributionKeyValue)
  | some n => ConjunctionContainsColumnFilter cat n column distributionKeyValue

mutual

/-- Modelled from the spec: `pull_var_clause_default` (outside this scope)
independently collects every variable reference anywhere in the expression
tree. -/
def pull_var_clause_default : Node → List Var
  | Node.var v => [v]
  | Node.opExpr _ args => pullVarsFromList args
  | Node.boolExpr _ args => pullVarsFromList args
  | Node.nodeList items => pullVarsFromList items
  | _ => []

/-- Variable collection over a list of nodes, in order. -/
def pullVarsFromList : List Node → List Var
  | [] => []
  | n :: rest => pull_var_clause_default n ++ pullVarsFromList rest

end

/-- ColumnAppearsMultipleTimes returns true if the given column appears
more than once among the variable references of the quals.  Mirrors
fast_path_router_planner.c:258-281 (the early exit at count two computes
exactly the predicate "count exceeds one"). -/
def ColumnAppearsMultipleTimes (quals : Node) (distributionKey : Var) : Bool :=
  decide (1 < (pull_var_clause_default quals).countP
    (fun column => column == distributionKey))

/-- NULL-guarded variant: `pull_var_clause` of an absent tree collects
nothing, so an absent qualifier tree never reports multiple
appearances. -/
def ColumnAppearsMultipleTimesOpt (quals : Option Node)
    (distributionKey : Var) : Bool :=
  match quals with
  | none => false
  | some n => ColumnAppearsMultipleTimes n distributionKey

/-- The quals normalization step of `FastPathRouterQuery`
(fast_path_router_planner.c:223-228): an implicit-AND list representation
is flattened into one expression tree; every other representation is kept
as is. -/
def explicitQuals : Option Node → Option Node
  | some (Node.nodeList items) => some (make_ands_explicit items)
  | q => q

/-- The final filter analysis of `FastPathRouterQuery`
(fast_path_router_planner.c:223-250): normalize the quals, run the
conjunction walk with an empty slot, and accept only when the walk found a
match and the distribution column does not appear multiple times.  The
slot's final state is returned alongside the verdict, as the C out
parameter leaves it. -/
def fastPathQualsCheck (cat : Catalog) (distributionKey : Var)
    (rawQuals : Option Node) : Bool × Option Node :=
  let quals := explicitQuals rawQuals
  let r := ConjunctionContainsColumnFilterOpt cat quals distributionKey none
  if r.1 && !ColumnAppearsMultipleTimesOpt quals distributionKey then
    (true, r.2)
  else
    (false, r.2)

/-- FastPathRouterQuery decides whether the query is eligible for fast-path
router planning and reports the recorded distribution-key value.  Mirrors
fast_path_router_planner.c:154-251 step by step: the global enable flag,
the CTE/sublink/set-operation/SRF/modifying-CTE rejections, the
INSERT-from-SELECT rejection and the unconditional INSERT acceptance, the
single-relation range-table requirement, the range/append-distributed
rejection, the join-tree and empty-WHERE checks, the reference-table
shortcut, and finally the conjunction-filter and duplicate-appearance
analysis. -/
def FastPathRouterQuery (cat : Catalog) (enableFastPathRouterPlanner : Bool)
    (query : Query) : Bool × Option Node :=
  if !enableFastPathRouterPlanner then (false, none)
  else if !query.cteList.isEmpty || query.hasSubLinks
      || query.setOperations.isSome || query.hasTargetSRFs
      || query.hasModifyingCTE then
    (false, none)
  else if CheckInsertSelectQuery query then
    (false, none)
  else if query.commandType == CmdType.insert then
    (true, none)
  else
    match query.rtable with
    | [rangeTableEntry] =>
      if rangeTableEntry.rtekind ≠ RTEKind.relation then (false, none)
      else
        let cacheEntry := GetCitusTableCacheEntry cat rangeTableEntry.relid
        if IsCitusTableTypeCacheEntry cacheEntry
            CitusTableTypeQuery.RANGE_DISTRIBUTED
          || IsCitusTableTypeCacheEntry cacheEntry
            CitusTableTypeQuery.APPEND_DISTRIBUTED then
          (false, none)
        else
          match query.jointree with
          | none => (false, none)
          | some joinTree =>
            if IsCitusTableTypeCacheEntry cacheEntry
                CitusTableTypeQuery.DISTRIBUTED_TABLE
                && joinTree.quals.isNone then
              (false, none)
            else
              match PartitionColumn cat rangeTableEntry.relid with
              | none => (true, none)
              | some distributionKey =>
                fastPathQualsCheck cat distributionKey joinTree.quals
    | _ => (false, none)

/-- Minimal plan node (the `SeqScan` with its embedded `Plan` fields that
`GeneratePlaceHolderPlannedStmt` fills in): scan target relation index,
target list, qualifier list and child plan trees. -/
inductive PlanTree where
  | node (scanrelid : Nat) (targetlist : List TargetEntry)
      (qual : Option Node) (plan_node_id : Nat)
      (lefttree : Option PlanTree) (righttree : Option PlanTree)

/-- Scan target relation index of a plan node. -/
def PlanTree.scanrelid : PlanTree → Nat
  | PlanTree.node s _ _ _ _ _ => s

/-- Target list of a plan node. -/
def PlanTree.targetlist : PlanTree → List TargetEntry
  | PlanTree.node _ t _ _ _ _ => t

/-- Qualifier list of a plan node. -/
def PlanTree.qual : PlanTree → Option Node
  | PlanTree.node _ _ q _ _ _ => q

/-- Node id of a plan node. -/
def PlanTree.plan_node_id : PlanTree → Nat
  | PlanTree.node _ _ _ i _ _ => i

/-- Left child of a plan node. -/
def PlanTree.lefttree : PlanTree → Option PlanTree
  | PlanTree.node _ _ _ _ l _ => l

/-- Right child of a plan node. -/
def PlanTree.righttree : PlanTree → Option PlanTree
  | PlanTree.node _ _ _ _ _ r => r

/-- Planned statement carrier (the `PlannedStmt` fields
`GeneratePlaceHolderPlannedStmt` fills in). -/
structure PlannedStmt where
  commandType : CmdType
  queryId : Nat
  stmt_len : Nat
  rtable : List RangeTblEntry
  planTree : PlanTree
  hasReturning : Bool
  relationOids : List Nat

/-- Modelled from the spec: `FetchStatementTargetList` (outside this scope)
returns the query's effective output projection — the target list of a
SELECT, and the RETURNING list of any other command. -/
def FetchStatementTargetList (parse : Query) : List TargetEntry :=
  match parse.commandType with
  | CmdType.select => parse.targetList
  | _ => parse.returningList

/-- Modelled from the spec: `ExtractFirstCitusTableId` (outside this scope)
resolves the catalog identifier of the classified table, the first and only
range-table entry of an eligible query. -/
def ExtractFirstCitusTableId (parse : Query) : Nat :=
  match parse.rtable with
  | rte :: _ => rte.relid
  | [] => 0

/-- GeneratePlaceHolderPlannedStmt creates the placeholder planned
statement: a sequential-scan node with `scanrelid = 1`, the statement's
target list, no quals and no children, wrapped with copies of the query's
command type, query id, statement length, range table and RETURNING flag,
and the single touched relation OID.  Mirrors
fast_path_router_planner.c:101-136 (`copyObject` is the identity on
values). -/
def GeneratePlaceHolderPlannedStmt (parse : Query) : PlannedStmt :=
  { commandType := parse.commandType
    queryId := parse.queryId
    stmt_len := parse.stmt_len
    rtable := parse.rtable
    planTree := PlanTree.node 1 (FetchStatementTargetList parse) none 1 none none
    hasReturning := !parse.returningList.isEmpty
    relationOids := [ExtractFirstCitusTableId parse] }

/-- WHERE-clause qualifier tree of a query, as written (before the
implicit-AND normalization): absent when the query has no join tree. -/
def queryQuals (query : Query) : Option Node :=
  match query.jointree with
  | none => none
  | some joinTree => joinTree.quals

/-- Variable references of an optional qualifier tree (empty when the tree
is absent). -/
def pullVarsOpt : Option Node → List Var
  | none => []
  | some n => pull_var_clause_default n

mutual

/-- Atomic conjuncts of a qualifier tree: the leaves reachable from the
root through AND nodes only.  These are exactly the nodes at which
`ConjunctionContainsColumnFilter` can test an operator expression (and at
which `DistKeyInSimpleOpExpression` can touch the slot). -/
def atomicConjuncts : Node → List Node
  | Node.boolExpr boolop args =>
    if boolop = BoolExprType.andExpr then atomicConjunctsList args
    else [Node.boolExpr boolop args]
  | n => [n]

/-- Atomic conjuncts of a conjunct list, in walk order. -/
def atomicConjunctsList : List Node → List Node
  | [] => []
  | a :: rest => atomicConjuncts a ++ atomicConjunctsList rest

end

/-- A conjunct that pairs a plain column reference (any column) with an
external parameter under a binary operator — the shape whose parameter the
recording logic writes into the slot. -/
def ParamConjunct (e : Node) (p : Param) : Prop :=
  p.paramkind = ParamKind.external ∧
  ∃ opno X, e = Node.opExpr opno [Node.var X, Node.param p] ∨
    e = Node.opExpr opno [Node.param p, Node.var X]

/-- A conjunct that pairs the distribution column with a non-null constant
whose declared type equals the column's declared type, under a binary
operator — the only shape whose constant the recording logic writes into
the slot. -/
def ConstConjunct (e : Node) (distColumn : Var) (c : Const) : Prop :=
  c.constisnull = false ∧ distColumn.vartype = c.consttype ∧
  ∃ opno, e = Node.opExpr opno [Node.var distColumn, Node.const c] ∨
    e = Node.opExpr opno [Node.const c, Node.var distColumn]

mutual

/-- Reverses the operand order of every two-argument operator expression
reachable through boolean expressions and clause lists — that is, at every
position where the conjunction walk could try a binary match.  The operands
themselves, and everything else (conjunct order included), are kept as
written.  Used to state that classification is symmetric in operand
order. -/
def mirror : Node → Node
  | Node.opExpr opno [leftOperand, rightOperand] =>
    Node.opExpr opno [rightOperand, leftOperand]
  | Node.boolExpr boolop args => Node.boolExpr boolop (mirrorList args)
  | Node.nodeList items => Node.nodeList (mirrorList items)
  | n => n

/-- Pointwise operand reversal over a list of nodes (list order kept). -/
def mirrorList : List Node → List Node
  | [] => []
  | a :: rest => mirror a :: mirrorList rest

end

/-- A distribution column used by the concrete examples below: attribute 1
of range-table entry 1, of type OID 23 (int4). -/
def exDistKey : Var := { varno := 1, varattno := 1, vartype := 23 }

/-- A non-distribution column of the same table: attribute 2. -/
def exOtherCol : Var := { varno := 1, varattno := 2, vartype := 23 }

/-- An external parameter reference ($1). -/
def exParam1 : Param :=
  { paramkind := ParamKind.external, paramid := 1, paramtype := 23 }

/-- A second external parameter reference ($2). -/
def exParam2 : Param :=
  { paramkind := ParamKind.external, paramid := 2, paramtype := 23 }

/-- The integer constant 5, of the distribution column's type. -/
def exConst5 : Const := { consttype := 23, constisnull := false, constvalue := 5 }

/-- The integer constant 6, of the distribution column's type. -/
def exConst6 : Const := { consttype := 23, constisnull := false, constvalue := 6 }

/-- The boolean constant TRUE. -/
def exConstTrue : Const := { consttype := 16, constisnull := false, constvalue := 1 }

/-- Concrete catalog oracle for the examples: table 1 is hash-distributed
on `exDistKey`, table 2 is a reference table, and operator 96 (int4eq) is
the only equality operator. -/
def exCatalog : Catalog :=
  { tableType := fun relationId =>
      if relationId == 1 then CitusTableType.hashDistributed
      else if relationId == 2 then CitusTableType.referenceTable
      else CitusTableType.citusLocalTable
    partitionColumn := fun relationId =>
      if relationId == 1 then some exDistKey else none
    opImplementsEquality := fun opno => opno == 96 }

/-- A single-table SELECT on the given relation with the given qualifier
tree, free of CTEs, sublinks, set operations, SRFs and modifying CTEs. -/
def exSelect (relationId : Nat) (qls : Option Node) : Query :=
  { commandType := CmdType.select
    queryId := 42
    stmt_len := 100
    cteList := []
    hasSubLinks := false
    setOperations := none
    hasTargetSRFs := false
    hasModifyingCTE := false
    insertFromSelect := false
    rtable := [{ rtekind := RTEKind.relation, relid := relationId }]
    jointree := some { fromlist := [], quals := qls }
    targetList := [{ expr := Node.var exDistKey, resno := 1 }]
    returningList := [] }

/-- A plain INSERT on table 1 (no CTEs/sublinks/set operations), not an
INSERT-from-SELECT. -/
def exInsert : Query :=
  { commandType := CmdType.insert
    queryId := 7
    stmt_len := 50
    cteList := []
    hasSubLinks := false
    setOperations := none
    hasTargetSRFs := false
    hasModifyingCTE := false
    insertFromSelect := false
    rtable := [{ rtekind := RTEKind.relation, relid := 1 }]
    jointree := some { fromlist := [], quals := none }
    targetList := [{ expr := Node.const exConst5, resno := 1 }]
    returningList := [] }

/-- Case analysis of a single `DistKeyInSimpleOpExpression` call: the slot
either comes back unchanged, or holds the parameter of a column/parameter
conjunct (any column), or — only if it was empty — the constant of a
qualifying distribution-column/constant conjunct. -/
theorem distKey_slot_cases (clause : Node) (distColumn : Var)
    (dkv : Option Node) :
    (DistKeyInSimpleOpExpression clause distColumn dkv).2 = dkv ∨
    (∃ p, ParamConjunct clause p ∧
      (DistKeyInSimpleOpExpression clause distColumn dkv).2 = some (Node.param p)) ∨
    (∃ c, ConstConjunct clause distColumn c ∧ dkv = none ∧
      (DistKeyInSimpleOpExpression clause distColumn dkv).2 = some (Node.const c)) := by
  cases clause with
  | opExpr opno args =>
    match args with
    | [] => exact Or.inl rfl
    | [a] => exact Or.inl rfl
    | a :: b :: x :: rest => exact Or.inl rfl
    | [a, b] =>
      cases a <;> cases b <;> try exact Or.inl rfl
      case var.param v p =>
        by_cases hpk : p.paramkind = ParamKind.external
        · refine Or.inr (Or.inl ⟨p, ⟨hpk, opno, v, Or.inl rfl⟩, ?_⟩)
          simp [DistKeyInSimpleOpExpression, BinaryOpExpression, hpk]
        · exact Or.inl (by
            simp [DistKeyInSimpleOpExpression, BinaryOpExpression, hpk])
      case param.var p v =>
        by_cases hpk : p.paramkind = ParamKind.external
        · refine Or.inr (Or.inl ⟨p, ⟨hpk, opno, v, Or.inr rfl⟩, ?_⟩)
          simp [DistKeyInSimpleOpExpression, BinaryOpExpression, hpk]
        · exact Or.inl (by
            simp [DistKeyInSimpleOpExpression, BinaryOpExpression, hpk])
      case var.const v c =>
        by_cases hnull : c.constisnull
        · exact Or.inl (by
            simp [DistKeyInSimpleOpExpression, BinaryOpExpression, hnull])
        · by_cases hw : (distColumn == v && distColumn.vartype == c.consttype
              && dkv.isNone) = true
          · have hcol : distColumn = v := by
              have := hw
              simp only [Bool.and_eq_true, beq_iff_eq] at this
              exact this.1.1
            have hty : distColumn.vartype = c.consttype := by
              have := hw
              simp only [Bool.and_eq_true, beq_iff_eq] at this
              exact this.1.2
            have hdkv : dkv = none := by
              have := hw
              simp only [Bool.and_eq_true, Option.isNone_iff_eq_none] at this
              exact this.2
            refine Or.inr (Or.inr ⟨c, ⟨by simpa using hnull, hty, opno, Or.inl ?_⟩,
              hdkv, ?_⟩)
            · rw [hcol]
            · simp [DistKeyInSimpleOpExpression, BinaryOpExpression, hnull, hw]
          · exact Or.inl (by
              simp only [DistKeyInSimpleOpExpression, BinaryOpExpression]
              simp [hnull, hw])
      case const.var c v =>
        by_cases hnull : c.constisnull
        · exact Or.inl (by
            simp [DistKeyInSimpleOpExpression, BinaryOpExpression, hnull])
        · by_cases hw : (distColumn == v && distColumn.vartype == c.consttype
              && dkv.isNone) = true
          · have hcol : distColumn = v := by
              have := hw
              simp only [Bool.and_eq_true, beq_iff_eq] at this
              exact this.1.1
            have hty : distColumn.vartype = c.consttype := by
              have := hw
              simp only [Bool.and_eq_true, beq_iff_eq] at this
              exact this.1.2
            have hdkv : dkv = none := by
              have := hw
              simp only [Bool.and_eq_true, Option.isNone_iff_eq_none] at this
              exact this.2
            refine Or.inr (Or.inr ⟨c, ⟨by simpa using hnull, hty, opno, Or.inr ?_⟩,
              hdkv, ?_⟩)
            · rw [hcol]
            · simp [DistKeyInSimpleOpExpression, BinaryOpExpression, hnull, hw]
          · exact Or.inl (by
              simp only [DistKeyInSimpleOpExpression, BinaryOpExpression]
              simp [hnull, hw])
  | var v => exact Or.inl rfl
  | const c => exact Or.inl rfl
  | param p => exact Or.inl rfl
  | boolExpr boolop args => exact Or.inl rfl
  | nodeList items => exact Or.inl rfl
  | other tag => exact Or.inl rfl

/-- A `DistKeyInSimpleOpExpression` call whose slot is already occupied
either leaves it unchanged or replaces it with an external parameter — a
constant can never displace an occupied slot. -/
theorem distKey_slot_some (clause : Node) (distColumn : Var) (v : Node)
    (r : Bool) (s' : Option Node)
    (h : DistKeyInSimpleOpExpression clause distColumn (some v) = (r, s')) :
    s' = some v ∨
    ∃ p, p.paramkind = ParamKind.external ∧ s' = some (Node.param p) := by
  have hc := distKey_slot_cases clause distColumn (some v)
  rw [h] at hc
  rcases hc with h1 | ⟨p, hp, h2⟩ | ⟨c, _, hnone, _⟩
  · exact Or.inl h1
  · exact Or.inr ⟨p, hp.1, h2⟩
  · exact absurd hnone (by simp)

mutual

/-- An occupied slot survives a conjunction walk except that an external
parameter may replace its content; in particular no constant is ever
recorded over it. -/
theorem walk_slot_some (cat : Catalog) (col : Var) (n : Node) :
    ∀ (v : Node) (r : Bool) (s' : Option Node),
      ConjunctionContainsColumnFilter cat n col (some v) = (r, s') →
      s' = some v ∨
      ∃ p, p.paramkind = ParamKind.external ∧ s' = some (Node.param p) := by
  intro v r s' h
  cases n with
  | opExpr opno args =>
    rcases hd : DistKeyInSimpleOpExpression (Node.opExpr opno args) col (some v)
      with ⟨m, s2⟩
    have hs : s' = s2 := by
      rw [ConjunctionContainsColumnFilter, hd] at h
      cases m <;> simp only [Bool.not_true, Bool.not_false, if_true, if_false] at h <;>
        exact (Prod.mk.injEq _ _ _ _ ▸ h).2.symm
    rw [hs]
    exact distKey_slot_some _ _ _ _ _ hd
  | boolExpr boolop args =>
    by_cases hb : boolop = BoolExprType.andExpr
    · subst hb
      rw [ConjunctionContainsColumnFilter] at h
      simp only [ne_eq, not_true_eq_false, if_false, reduceIte] at h
      exact walkArgs_slot_some cat col args v r s' h
    · rw [ConjunctionContainsColumnFilter] at h
      rw [if_pos (by simpa using hb)] at h
      exact Or.inl (Prod.mk.injEq _ _ _ _ ▸ h).2.symm
  | var v0 => exact Or.inl ((Prod.mk.injEq _ _ _ _ ▸ h).2.symm)
  | const c => exact Or.inl ((Prod.mk.injEq _ _ _ _ ▸ h).2.symm)
  | param p => exact Or.inl ((Prod.mk.injEq _ _ _ _ ▸ h).2.symm)
  | nodeList items => exact Or.inl ((Prod.mk.injEq _ _ _ _ ▸ h).2.symm)
  | other tag => exact Or.inl ((Prod.mk.injEq _ _ _ _ ▸ h).2.symm)

/-- List version of `walk_slot_some`, over the conjunct loop. -/
theorem walkArgs_slot_some (cat : Catalog) (col : Var) (l : List Node) :
    ∀ (v : Node) (r : Bool) (s' : Option Node),
      conjunctionWalkArgs cat l col (some v) = (r, s') →
      s' = some v ∨
      ∃ p, p.paramkind = ParamKind.external ∧ s' = some (Node.param p) := by
  intro v r s' h
  cases l with
  | nil => exact Or.inl ((Prod.mk.injEq _ _ _ _ ▸ h).2.symm)
  | cons a rest =>
    rcases ha : ConjunctionContainsColumnFilter cat a col (some v) with ⟨m, s1⟩
    have hstep := walk_slot_some cat col a v m s1 ha
    rw [conjunctionWalkArgs, ha] at h
    cases m with
    | true =>
      simp only [if_true] at h
      have hs : s' = s1 := (Prod.mk.injEq _ _ _ _ ▸ h).2.symm
      rw [hs]
      exact hstep
    | false =>
      simp only [if_false, Bool.false_eq_true, reduceIte] at h
      rcases hstep with h1 | ⟨p, hpk, h2⟩
      · rw [h1] at h
        exact walkArgs_slot_some cat col rest v r s' h
      · rw [h2] at h
        rcases walkArgs_slot_some cat col rest (Node.param p) r s' h with
          h3 | ⟨p2, hpk2, h4⟩
        · exact Or.inr ⟨p, hpk, h3⟩
        · exact Or.inr ⟨p2, hpk2, h4⟩

end

mutual

/-- Origin of a recorded value: whenever a conjunction walk changes the
slot, the final slot content was written by some atomic conjunct of the
walked tree — an external parameter paired with some plain column, or a
qualifying non-null, exact-type constant paired with the distribution
column. -/
theorem walk_write_origin (cat : Catalog) (col : Var) (n : Node) :
    ∀ (dkv : Option Node) (r : Bool) (s' : Option Node),
      ConjunctionContainsColumnFilter cat n col dkv = (r, s') →
      s' = dkv ∨
      ∃ e ∈ atomicConjuncts n,
        (∃ p, ParamConjunct e p ∧ s' = some (Node.param p)) ∨
        (∃ c, ConstConjunct e col c ∧ s' = some (Node.const c)) := by
  intro dkv r s' h
  cases n with
  | opExpr opno args =>
    rcases hd : DistKeyInSimpleOpExpression (Node.opExpr opno args) col dkv
      with ⟨m, s2⟩
    have hs : s' = s2 := by
      rw [ConjunctionContainsColumnFilter, hd] at h
      cases m <;> simp only [Bool.not_true, Bool.not_false, if_true, if_false] at h <;>
        exact (Prod.mk.injEq _ _ _ _ ▸ h).2.symm
    have hc := distKey_slot_cases (Node.opExpr opno args) col dkv
    rw [hd] at hc
    rcases hc with h1 | ⟨p, hp, h2⟩ | ⟨c, hcc, _, h3⟩
    · exact Or.inl (hs.trans h1)
    · refine Or.inr ⟨Node.opExpr opno args, ?_, Or.inl ⟨p, hp, hs.trans h2⟩⟩
      simp [atomicConjuncts]
    · refine Or.inr ⟨Node.opExpr opno args, ?_, Or.inr ⟨c, hcc, hs.trans h3⟩⟩
      simp [atomicConjuncts]
  | boolExpr boolop args =>
    by_cases hb : boolop = BoolExprType.andExpr
    · subst hb
      rw [ConjunctionContainsColumnFilter] at h
      simp only [ne_eq, not_true_eq_false, if_false, reduceIte] at h
      rcases walkArgs_write_origin cat col args dkv r s' h with h1 | ⟨e, he, hcase⟩
      · exact Or.inl h1
      · refine Or.inr ⟨e, ?_, hcase⟩
        simpa [atomicConjuncts] using he
    · rw [ConjunctionContainsColumnFilter] at h
      rw [if_pos (by simpa using hb)] at h
      exact Or.inl (Prod.mk.injEq _ _ _ _ ▸ h).2.symm
  | var v0 => exact Or.inl ((Prod.mk.injEq _ _ _ _ ▸ h).2.symm)
  | const c => exact Or.inl ((Prod.mk.injEq _ _ _ _ ▸ h).2.symm)
  | param p => exact Or.inl ((Prod.mk.injEq _ _ _ _ ▸ h).2.symm)
  | nodeList items => exact Or.inl ((Prod.mk.injEq _ _ _ _ ▸ h).2.symm)
  | other tag => exact Or.inl ((Prod.mk.injEq _ _ _ _ ▸ h).2.symm)

/-- List version of `walk_write_origin`, over the conjunct loop. -/
theorem walkArgs_write_origin (cat : Catalog) (col : Var) (l : List Node) :
    ∀ (dkv : Option Node) (r : Bool) (s' : Option Node),
      conjunctionWalkArgs cat l col dkv = (r, s') →
      s' = dkv ∨
      ∃ e ∈ atomicConjunctsList l,
        (∃ p, ParamConjunct e p ∧ s' = some (Node.param p)) ∨
        (∃ c, ConstConjunct e col c ∧ s' = some (Node.const c)) := by
  intro dkv r s' h
  cases l with
  | nil => exact Or.inl ((Prod.mk.injEq _ _ _ _ ▸ h).2.symm)
  | cons a rest =>
    rcases ha : ConjunctionContainsColumnFilter cat a col dkv with ⟨m, s1⟩
    have hstep := walk_write_origin cat col a dkv m s1 ha
    rw [conjunctionWalkArgs, ha] at h
    have hmem : ∀ e, e ∈ atomicConjuncts a →
        e ∈ atomicConjunctsList (a :: rest) := by
      intro e he
      simp only [atomicConjunctsList, List.mem_append]
      exact Or.inl he
    have hmemr : ∀ e, e ∈ atomicConjunctsList rest →
        e ∈ atomicConjunctsList (a :: rest) := by
      intro e he
      simp only [atomicConjunctsList, List.mem_append]
      exact Or.inr he
    cases m with
    | true =>
      simp only [if_true] at h
      have hs : s' = s1 := (Prod.mk.injEq _ _ _ _ ▸ h).2.symm
      rw [hs]
      rcases hstep with h1 | ⟨e, he, hcase⟩
      · exact Or.inl h1
      · exact Or.inr ⟨e, hmem e he, hcase⟩
    | false =>
      simp only [if_false, Bool.false_eq_true, reduceIte] at h
      rcases walkArgs_write_origin cat col rest s1 r s' h with h1 | ⟨e, he, hcase⟩
      · rw [h1]
        rcases hstep with h2 | ⟨e, he, hcase⟩
        · exact Or.inl h2
        · exact Or.inr ⟨e, hmem e he, hcase⟩
      · exact Or.inr ⟨e, hmemr e he, hcase⟩

end

/-- Whenever classification reports any recorded distribution-key value,
the query reached the filter analysis (single relation range-table entry,
a distribution column present), and the value originates in some atomic
conjunct of the normalized WHERE clause: an external parameter paired with
some plain column, or a qualifying constant paired with the distribution
column. -/
theorem fastPath_slot_origin (cat : Catalog) (enable : Bool) (q : Query)
    (elig : Bool) (v : Node)
    (h : FastPathRouterQuery cat enable q = (elig, some v)) :
    ∃ rte dkey, q.rtable = [rte] ∧ rte.rtekind = RTEKind.relation ∧
      PartitionColumn cat rte.relid = some dkey ∧
      ∃ w, explicitQuals (queryQuals q) = some w ∧
        ∃ e ∈ atomicConjuncts w,
          (∃ p, ParamConjunct e p ∧ v = Node.param p) ∨
          (∃ c, ConstConjunct e dkey c ∧ v = Node.const c) := by
  simp only [FastPathRouterQuery] at h
  split at h
  · simp at h
  split at h
  · simp at h
  split at h
  · simp at h
  split at h
  · simp at h
  split at h
  case _ =>
    rename_i rte hrt
    split at h
    · simp at h
    rename_i hrel
    have hrelation : rte.rtekind = RTEKind.relation := not_not.mp hrel
    split at h
    · simp at h
    split at h
    case _ => simp at h
    case _ =>
      rename_i joinTree hjt
      split at h
      · simp at h
      split at h
      case _ => simp at h
      case _ =>
        rename_i dkey hpc
        simp only [fastPathQualsCheck] at h
        rcases hq : explicitQuals joinTree.quals with _ | w
        · rw [hq] at h
          simp [ConjunctionContainsColumnFilterOpt] at h
        · rw [hq] at h
          simp only [ConjunctionContainsColumnFilterOpt] at h
          rcases hw : ConjunctionContainsColumnFilter cat w dkey none with ⟨m, s2⟩
          rw [hw] at h
          have hs : s2 = some v := by
            split at h <;> exact (Prod.mk.injEq _ _ _ _ ▸ h).2
          rcases walk_write_origin cat dkey w none m s2 hw with h1 | ⟨e, he, hcase⟩
          · rw [h1] at hs
            exact absurd hs (by simp)
          · have hqq : explicitQuals (queryQuals q) = some w := by
              unfold queryQuals
              rw [hjt]
              exact hq
            refine ⟨rte, dkey, hrt, hrelation, hpc, w, hqq, e, he, ?_⟩
            rcases hcase with ⟨p, hp, hv⟩ | ⟨c, hc, hv⟩
            · exact Or.inl ⟨p, hp, Option.some.inj (hs.symm.trans hv)⟩
            · exact Or.inr ⟨c, hc, Option.some.inj (hs.symm.trans hv)⟩
  case _ => simp at h

/-- C1 (counterexample): for the query
`SELECT .. WHERE other_col = $1 AND dist_key = 5` on the hash-distributed
table, classification returns eligible and records the parameter `$1` as
the distribution-key value, although the only expression containing that
parameter is an equality on a column that is not the distribution column —
refuting the claim that such an equality never causes anything to be
recorded.  (The first conjunct writes the parameter while failing its
column test; the occupied slot then blocks the qualifying constant of the
second conjunct.) -/
theorem c1_nonDistColumnParamRecorded_counterexample :
    FastPathRouterQuery exCatalog true
      (exSelect 1 (some (Node.boolExpr BoolExprType.andExpr
        [Node.opExpr 96 [Node.var exOtherCol, Node.param exParam1],
         Node.opExpr 96 [Node.var exDistKey, Node.const exConst5]])))
      = (true, some (Node.param exParam1)) ∧ exOtherCol ≠ exDistKey :=
  ⟨rfl, by decide⟩

/-- C1 (amended): a recorded distribution-key value always originates in an
atomic conjunct of the normalized WHERE clause, but the qualifying shapes
differ by kind: a recorded constant comes from a binary expression pairing
the distribution column itself with a non-null constant of exactly the
column's declared type, while a recorded parameter comes from a binary
expression pairing an external parameter with any plain column reference —
not necessarily the distribution column, and regardless of the operator's
semantics. -/
theorem c1_valueRecordingRule (cat : Catalog) (enable : Bool) (q : Query)
    (elig : Bool) (v : Node)
    (h : FastPathRouterQuery cat enable q = (elig, some v)) :
    ∃ rte dkey, q.rtable = [rte] ∧ PartitionColumn cat rte.relid = some dkey ∧
      ∃ w, explicitQuals (queryQuals q) = some w ∧
        ∃ e ∈ atomicConjuncts w,
          (∃ p, ParamConjunct e p ∧ v = Node.param p) ∨
          (∃ c, ConstConjunct e dkey c ∧ v = Node.const c) := by
  obtain ⟨rte, dkey, h1, _, h3, rest⟩ := fastPath_slot_origin cat enable q elig v h
  exact ⟨rte, dkey, h1, h3, rest⟩

/-- C1 (witness): the amended rule applied to the concrete query
`SELECT .. WHERE dist_key = $1`. -/
theorem c1_valueRecordingRule_witness :
    FastPathRouterQuery exCatalog true
        (exSelect 1 (some (Node.opExpr 96 [Node.var exDistKey, Node.param exParam1])))
      = (true, some (Node.param exParam1)) ∧
    (∃ rte dkey,
      (exSelect 1 (some (Node.opExpr 96 [Node.var exDistKey, Node.param exParam1]))).rtable
        = [rte] ∧
      PartitionColumn exCatalog rte.relid = some dkey ∧
      ∃ w, explicitQuals (queryQuals
        (exSelect 1 (some (Node.opExpr 96 [Node.var exDistKey, Node.param exParam1]))))
        = some w ∧
      ∃ e ∈ atomicConjuncts w,
        (∃ p, ParamConjunct e p ∧ Node.param exParam1 = Node.param p) ∨
        (∃ c, ConstConjunct e dkey c ∧ Node.param exParam1 = Node.const c)) :=
  ⟨rfl, c1_valueRecordingRule exCatalog true _ true (Node.param exParam1) rfl⟩

/-- C2 (counterexample): at the recording site, a call on
`dist_key = $1` with the output slot already holding `$2` overwrites the
slot with `$1` — refuting the claim that a set slot is never overwritten by
a later candidate match. -/
theorem c2_slotOverwritten_counterexample :
    DistKeyInSimpleOpExpression
        (Node.opExpr 96 [Node.var exDistKey, Node.param exParam1]) exDistKey
        (some (Node.param exParam2))
      = (true, some (Node.param exParam1)) ∧ exParam1 ≠ exParam2 :=
  ⟨rfl, by decide⟩

/-- C2 (amended): during a single classification walk an occupied
distribution-key-value slot is never overwritten by a constant candidate
(constants are recorded only into an empty slot), but an external-parameter
candidate does overwrite it, so when several parameter candidates occur the
last one examined wins. -/
theorem c2_slotOverwriteRule (cat : Catalog) (col : Var) (n : Node) (v : Node)
    (r : Bool) (s' : Option Node)
    (h : ConjunctionContainsColumnFilter cat n col (some v) = (r, s')) :
    s' = some v ∨
    ∃ p, p.paramkind = ParamKind.external ∧ s' = some (Node.param p) :=
  walk_slot_some cat col n v r s' h

/-- C2 (witness): the amended rule applied to a concrete walk whose slot
already holds `$2` when `dist_key = $1` is examined. -/
theorem c2_slotOverwriteRule_witness :
    ConjunctionContainsColumnFilter exCatalog
        (Node.opExpr 96 [Node.var exDistKey, Node.param exParam1]) exDistKey
        (some (Node.param exParam2))
      = (true, some (Node.param exParam1)) ∧
    (some (Node.param exParam1) = some (Node.param exParam2) ∨
      ∃ p, p.paramkind = ParamKind.external ∧
        (some (Node.param exParam1) : Option Node) = some (Node.param p)) :=
  ⟨rfl, c2_slotOverwriteRule exCatalog exDistKey
    (Node.opExpr 96 [Node.var exDistKey, Node.param exParam1])
    (Node.param exParam2) true (some (Node.param exParam1)) rfl⟩

/-- C3 (confirmed): whenever classification returns eligible with a
recorded constant, that constant was equated (in an atomic conjunct of the
normalized WHERE clause) with the table's distribution column itself, it is
non-null, and its declared type is exactly the distribution column's
declared type. -/
theorem c3_constValueSound (cat : Catalog) (enable : Bool) (q : Query)
    (c : Const)
    (h : FastPathRouterQuery cat enable q = (true, some (Node.const c))) :
    ∃ rte dkey, q.rtable = [rte] ∧ PartitionColumn cat rte.relid = some dkey ∧
      dkey.vartype = c.consttype ∧ c.constisnull = false ∧
      ∃ w, explicitQuals (queryQuals q) = some w ∧
        ∃ e ∈ atomicConjuncts w, ∃ opno,
          e = Node.opExpr opno [Node.var dkey, Node.const c] ∨
          e = Node.opExpr opno [Node.const c, Node.var dkey] := by
  obtain ⟨rte, dkey, h1, _, h3, w, hw, e, he, hcase⟩ :=
    fastPath_slot_origin cat enable q true (Node.const c) h
  rcases hcase with ⟨p, _, hv⟩ | ⟨c2, hc2, hv⟩
  · exact Node.noConfusion hv
  · obtain ⟨hnull, hty, opno, hsh⟩ := hc2
    have hcc : c = c2 := by injection hv
    subst hcc
    exact ⟨rte, dkey, h1, h3, hty, hnull, w, hw, e, he, opno, hsh⟩

/-- C3 (witness): the soundness statement applied to the concrete query
`SELECT .. WHERE dist_key = 5`. -/
theorem c3_constValueSound_witness :
    FastPathRouterQuery exCatalog true
        (exSelect 1 (some (Node.opExpr 96 [Node.var exDistKey, Node.const exConst5])))
      = (true, some (Node.const exConst5)) ∧
    (∃ rte dkey,
      (exSelect 1 (some (Node.opExpr 96 [Node.var exDistKey, Node.const exConst5]))).rtable
        = [rte] ∧
      PartitionColumn exCatalog rte.relid = some dkey ∧
      dkey.vartype = exConst5.consttype ∧ exConst5.constisnull = false ∧
      ∃ w, explicitQuals (queryQuals
        (exSelect 1 (some (Node.opExpr 96 [Node.var exDistKey, Node.const exConst5]))))
        = some w ∧
      ∃ e ∈ atomicConjuncts w, ∃ opno,
        e = Node.opExpr opno [Node.var dkey, Node.const exConst5] ∨
        e = Node.opExpr opno [Node.const exConst5, Node.var dkey]) :=
  ⟨rfl, c3_constValueSound exCatalog true _ exConst5 rfl⟩

/-- Normalization preserves the collected variable references: flattening
an implicit-AND list changes the tree shape only. -/
theorem pull_explicitQuals (qopt : Option Node) :
    pullVarsOpt (explicitQuals qopt) = pullVarsOpt qopt := by
  cases qopt with
  | none => rfl
  | some n =>
    cases n with
    | nodeList items =>
      show pull_var_clause_default (make_ands_explicit items)
        = pull_var_clause_default (Node.nodeList items)
      cases items with
      | nil => rfl
      | cons a rest =>
        cases rest with
        | nil => simp [make_ands_explicit, pull_var_clause_default, pullVarsFromList]
        | cons b rest2 => rfl
    | var v => rfl
    | const c => rfl
    | param p => rfl
    | opExpr opno args => rfl
    | boolExpr boolop args => rfl
    | other tag => rfl

/-- More than one reference to the column in the raw WHERE clause makes
`ColumnAppearsMultipleTimes` fire on the normalized clause. -/
theorem multipleTimes_of_count (qopt : Option Node) (dk : Var)
    (h : 1 < (pullVarsOpt qopt).countP (fun column => column == dk)) :
    ColumnAppearsMultipleTimesOpt (explicitQuals qopt) dk = true := by
  cases hq : explicitQuals qopt with
  | none =>
    have hp := pull_explicitQuals qopt
    rw [hq] at hp
    rw [← hp] at h
    simp [pullVarsOpt] at h
  | some w =>
    have hp := pull_explicitQuals qopt
    rw [hq] at hp
    simp only [ColumnAppearsMultipleTimesOpt, ColumnAppearsMultipleTimes]
    rw [decide_eq_true_eq]
    show 1 < (pull_var_clause_default w).countP (fun column => column == dk)
    rw [show pull_var_clause_default w = pullVarsOpt qopt from hp]
    exact h

/-- C4 (confirmed): a non-INSERT query on a table with a distribution
column whose WHERE clause references that column more than once — anywhere
in the expression tree — is classified ineligible, whatever else the clause
contains. -/
theorem c4_duplicateDistKeyRejected (cat : Catalog) (enable : Bool)
    (q : Query) (rte : RangeTblEntry) (dkey : Var)
    (hcmd : q.commandType ≠ CmdType.insert)
    (hrt : q.rtable = [rte])
    (hpc : PartitionColumn cat rte.relid = some dkey)
    (hcount : 1 < (pullVarsOpt (queryQuals q)).countP
      (fun column => column == dkey)) :
    (FastPathRouterQuery cat enable q).1 = false := by
  simp only [FastPathRouterQuery]
  split
  · rfl
  split
  · rfl
  split
  · rfl
  split
  case _ hins => exact absurd (by simpa using hins) hcmd
  split
  case _ rte2 hrt2 =>
    have hre : rte2 = rte := by
      rw [hrt] at hrt2
      exact (List.cons.injEq _ _ _ _ ▸ hrt2.symm).1
    subst hre
    split
    · rfl
    split
    · rfl
    split
    case _ => rfl
    case _ joinTree hjt =>
      split
      · rfl
      split
      case _ hpc2 => rw [hpc2] at hpc; exact Option.noConfusion hpc
      case _ dkey2 hpc2 =>
        have hde : dkey2 = dkey := by
          rw [hpc2] at hpc
          exact Option.some.inj hpc
        subst hde
        rename_i dkey2 _
        have hqq : queryQuals q = joinTree.quals := by
          unfold queryQuals
          rw [hjt]
        rw [hqq] at hcount
        have hm := multipleTimes_of_count joinTree.quals dkey2 hcount
        simp only [fastPathQualsCheck, hm]
        simp
  case _ => rfl

/-- C4 (witness): `WHERE dist_key = 5 AND dist_key = 6` on the
hash-distributed table is ineligible. -/
theorem c4_duplicateDistKeyRejected_witness :
    1 < (pullVarsOpt (queryQuals (exSelect 1 (some (Node.boolExpr
        BoolExprType.andExpr
        [Node.opExpr 96 [Node.var exDistKey, Node.const exConst5],
         Node.opExpr 96 [Node.var exDistKey, Node.const exConst6]]))))).countP
      (fun column => column == exDistKey) ∧
    (FastPathRouterQuery exCatalog true (exSelect 1 (some (Node.boolExpr
        BoolExprType.andExpr
        [Node.opExpr 96 [Node.var exDistKey, Node.const exConst5],
         Node.opExpr 96 [Node.var exDistKey, Node.const exConst6]])))).1
      = false :=
  ⟨by decide, c4_duplicateDistKeyRejected exCatalog true _
    { rtekind := RTEKind.relation, relid := 1 } exDistKey (by decide) rfl rfl
    (by decide)⟩

/-- C5 (confirmed): a non-INSERT query on a table with a distribution
column whose WHERE clause is a top-level disjunction is classified
ineligible with nothing recorded, whatever the disjuncts are — the
conjunction walk never descends into an OR node. -/
theorem c5_disjunctionRejected (cat : Catalog) (enable : Bool) (q : Query)
    (rte : RangeTblEntry) (dkey : Var) (args : List Node)
    (hcmd : q.commandType ≠ CmdType.insert)
    (hrt : q.rtable = [rte])
    (hpc : PartitionColumn cat rte.relid = some dkey)
    (hq : queryQuals q = some (Node.boolExpr BoolExprType.orExpr args)) :
    FastPathRouterQuery cat enable q = (false, none) := by
  simp only [FastPathRouterQuery]
  split
  · rfl
  split
  · rfl
  split
  · rfl
  split
  case _ hins => exact absurd (by simpa using hins) hcmd
  split
  case _ rte2 hrt2 =>
    have hre : rte2 = rte := by
      rw [hrt] at hrt2
      exact (List.cons.injEq _ _ _ _ ▸ hrt2.symm).1
    subst hre
    split
    · rfl
    split
    · rfl
    split
    case _ => rfl
    case _ joinTree hjt =>
      have hqq : joinTree.quals = some (Node.boolExpr BoolExprType.orExpr args) := by
        unfold queryQuals at hq
        rw [hjt] at hq
        exact hq
      split
      · rfl
      split
      case _ hpc2 => rw [hpc2] at hpc; exact Option.noConfusion hpc
      case _ dkey2 hpc2 =>
        simp only [fastPathQualsCheck, hqq]
        simp [explicitQuals, ConjunctionContainsColumnFilterOpt,
          ConjunctionContainsColumnFilter]
  case _ => rfl

/-- C5 (witness): `WHERE dist_key = 5 OR true` on the hash-distributed
table is ineligible with nothing recorded. -/
theorem c5_disjunctionRejected_witness :
    queryQuals (exSelect 1 (some (Node.boolExpr BoolExprType.orExpr
        [Node.opExpr 96 [Node.var exDistKey, Node.const exConst5],
         Node.const exConstTrue])))
      = some (Node.boolExpr BoolExprType.orExpr
        [Node.opExpr 96 [Node.var exDistKey, Node.const exConst5],
         Node.const exConstTrue]) ∧
    FastPathRouterQuery exCatalog true (exSelect 1 (some (Node.boolExpr
        BoolExprType.orExpr
        [Node.opExpr 96 [Node.var exDistKey, Node.const exConst5],
         Node.const exConstTrue])))
      = (false, none) :=
  ⟨rfl, c5_disjunctionRejected exCatalog true _
    { rtekind := RTEKind.relation, relid := 1 } exDistKey
    [Node.opExpr 96 [Node.var exDistKey, Node.const exConst5],
     Node.const exConstTrue] (by decide) rfl rfl rfl⟩

/-- C6 (confirmed): a plain INSERT free of CTEs, sublinks, set operations,
set-returning functions and modifying CTEs, and not an INSERT-from-SELECT,
is classified eligible with nothing recorded — for any catalog, range
table, join tree and target list — while an INSERT-from-SELECT is always
classified ineligible. -/
theorem c6_insertShortcut :
    (∀ (cat : Catalog) (q : Query),
      q.commandType = CmdType.insert → q.cteList = [] →
      q.hasSubLinks = false → q.setOperations = none →
      q.hasTargetSRFs = false → q.hasModifyingCTE = false →
      q.insertFromSelect = false →
      FastPathRouterQuery cat true q = (true, none)) ∧
    (∀ (cat : Catalog) (enable : Bool) (q : Query),
      q.commandType = CmdType.insert → q.insertFromSelect = true →
      (FastPathRouterQuery cat enable q).1 = false) := by
  constructor
  · intro cat q hcmd hcte hsub hset hsrf hmod hins
    simp [FastPathRouterQuery, CheckInsertSelectQuery, hcmd, hcte, hsub, hset,
      hsrf, hmod, hins]
  · intro cat enable q hcmd hins
    simp only [FastPathRouterQuery]
    split
    · rfl
    split
    · rfl
    split
    · rfl
    rename_i hcis
    exact absurd (by simp [CheckInsertSelectQuery, hcmd, hins]) hcis

/-- C6 (witness): the shortcut applied to a concrete plain INSERT and to
the same INSERT marked as INSERT-from-SELECT. -/
theorem c6_insertShortcut_witness :
    FastPathRouterQuery exCatalog true exInsert = (true, none) ∧
    (FastPathRouterQuery exCatalog true
      { exInsert with insertFromSelect := true }).1 = false :=
  ⟨c6_insertShortcut.1 exCatalog exInsert rfl rfl rfl rfl rfl rfl rfl,
   c6_insertShortcut.2 exCatalog true { exInsert with insertFromSelect := true }
     rfl rfl⟩

/-- C7 (confirmed): with an empty WHERE clause (a join tree present but no
quals), a single-relation non-INSERT query free of the rejected constructs
is classified eligible with nothing recorded when the table is a reference
table (no distribution column), and ineligible when the table is
hash-distributed. -/
theorem c7_referenceVsHashEmptyWhere :
    (∀ (cat : Catalog) (q : Query) (rte : RangeTblEntry) (jt : FromExpr),
      q.commandType ≠ CmdType.insert → q.cteList = [] →
      q.hasSubLinks = false → q.setOperations = none →
      q.hasTargetSRFs = false → q.hasModifyingCTE = false →
      q.rtable = [rte] → rte.rtekind = RTEKind.relation →
      cat.tableType rte.relid = CitusTableType.referenceTable →
      cat.partitionColumn rte.relid = none →
      q.jointree = some jt → jt.quals = none →
      FastPathRouterQuery cat true q = (true, none)) ∧
    (∀ (cat : Catalog) (enable : Bool) (q : Query) (rte : RangeTblEntry)
        (jt : FromExpr),
      q.commandType ≠ CmdType.insert → q.rtable = [rte] →
      cat.tableType rte.relid = CitusTableType.hashDistributed →
      q.jointree = some jt → jt.quals = none →
      FastPathRouterQuery cat enable q = (false, none)) := by
  constructor
  · intro cat q rte jt hcmd hcte hsub hset hsrf hmod hrt hkind htt hpc hjt hq
    simp [FastPathRouterQuery, CheckInsertSelectQuery, GetCitusTableCacheEntry,
      IsCitusTableTypeCacheEntry, PartitionColumn, hcmd, hcte, hsub, hset,
      hsrf, hmod, hrt, hkind, htt, hpc, hjt, hq]
  · intro cat enable q rte jt hcmd hrt htt hjt hq
    simp only [FastPathRouterQuery]
    split
    · rfl
    split
    · rfl
    split
    · rfl
    split
    case _ hins => exact absurd (by simpa using hins) hcmd
    split
    case _ rte2 hrt2 =>
      have hre : rte2 = rte := by
        rw [hrt] at hrt2
        exact (List.cons.injEq _ _ _ _ ▸ hrt2.symm).1
      subst hre
      split
      · rfl
      split
      · rfl
      split
      case _ => rfl
      case _ joinTree hjt2 =>
        have hje : joinTree = jt := by
          rw [hjt] at hjt2
          exact Option.some.inj hjt2.symm
        subst hje
        split
        · rfl
        rename_i hcond
        exact absurd (by
          simp [IsCitusTableTypeCacheEntry, GetCitusTableCacheEntry, htt, hq])
          hcond
    case _ => rfl

/-- C7 (witness): the shortcut applied to a concrete empty-WHERE query on
the reference table and on the hash-distributed table. -/
theorem c7_referenceVsHashEmptyWhere_witness :
    FastPathRouterQuery exCatalog true (exSelect 2 none) = (true, none) ∧
    FastPathRouterQuery exCatalog true (exSelect 1 none) = (false, none) :=
  ⟨c7_referenceVsHashEmptyWhere.1 exCatalog (exSelect 2 none)
      { rtekind := RTEKind.relation, relid := 2 } { fromlist := [], quals := none }
      (by decide) rfl rfl rfl rfl rfl rfl rfl rfl rfl rfl rfl,
   c7_referenceVsHashEmptyWhere.2 exCatalog true (exSelect 1 none)
      { rtekind := RTEKind.relation, relid := 1 } { fromlist := [], quals := none }
      (by decide) rfl rfl rfl rfl⟩

/-- C10 (confirmed): a non-INSERT query with no join tree at all is
classified ineligible with nothing recorded, for every catalog — in
particular even when the table is a reference table, the absence of a join
tree rejects the query before the reference-table shortcut can accept
it. -/
theorem c10_nullJoinTreeRejected (cat : Catalog) (enable : Bool) (q : Query)
    (hcmd : q.commandType ≠ CmdType.insert) (hjt : q.jointree = none) :
    FastPathRouterQuery cat enable q = (false, none) := by
  simp only [FastPathRouterQuery]
  split
  · rfl
  split
  · rfl
  split
  · rfl
  split
  case _ hins => exact absurd (by simpa using hins) hcmd
  split
  case _ rte2 hrt2 =>
    split
    · rfl
    split
    · rfl
    split
    case _ => rfl
    case _ joinTree hjt2 => rw [hjt] at hjt2; exact Option.noConfusion hjt2
  case _ => rfl

/-- C10 (witness): a query on the reference table whose join tree is
absent is rejected. -/
theorem c10_nullJoinTreeRejected_witness :
    FastPathRouterQuery exCatalog true
      { exSelect 2 none with jointree := none } = (false, none) :=
  c10_nullJoinTreeRejected exCatalog true
    { exSelect 2 none with jointree := none } (by decide) rfl

/-- A single binary-expression test is symmetric in operand order: the
operand-shape cascade of `DistKeyInSimpleOpExpression` treats both orders
alike, returning the same verdict and the same slot state. -/
theorem distKey_swap (opno : Nat) (a b : Node) (col : Var)
    (dkv : Option Node) :
    DistKeyInSimpleOpExpression (Node.opExpr opno [b, a]) col dkv
      = DistKeyInSimpleOpExpression (Node.opExpr opno [a, b]) col dkv := by
  cases a <;> cases b <;> rfl

mutual

/-- The conjunction walk is invariant under operand reversal. -/
theorem walk_mirror (cat : Catalog) (col : Var) (n : Node) :
    ∀ (dkv : Option Node),
      ConjunctionContainsColumnFilter cat (mirror n) col dkv
        = ConjunctionContainsColumnFilter cat n col dkv := by
  intro dkv
  cases n with
  | opExpr opno args =>
    match args with
    | [] => rfl
    | [a] => rfl
    | [a, b] =>
      show ConjunctionContainsColumnFilter cat (Node.opExpr opno [b, a]) col dkv
        = ConjunctionContainsColumnFilter cat (Node.opExpr opno [a, b]) col dkv
      simp only [ConjunctionContainsColumnFilter]
      rw [distKey_swap]
    | a :: b :: x :: rest => rfl
  | boolExpr boolop args =>
    show ConjunctionContainsColumnFilter cat
        (Node.boolExpr boolop (mirrorList args)) col dkv
      = ConjunctionContainsColumnFilter cat (Node.boolExpr boolop args) col dkv
    by_cases hb : boolop = BoolExprType.andExpr
    · subst hb
      simp only [ConjunctionContainsColumnFilter]
      simp only [ne_eq, not_true_eq_false, if_false, reduceIte]
      exact walkArgs_mirror cat col args dkv
    · simp only [ConjunctionContainsColumnFilter]
      rw [if_pos (by simpa using hb), if_pos (by simpa using hb)]
  | var v => rfl
  | const c => rfl
  | param p => rfl
  | nodeList items => rfl
  | other t => rfl

/-- List version of `walk_mirror`, over the conjunct loop. -/
theorem walkArgs_mirror (cat : Catalog) (col : Var) (l : List Node) :
    ∀ (dkv : Option Node),
      conjunctionWalkArgs cat (mirrorList l) col dkv
        = conjunctionWalkArgs cat l col dkv := by
  intro dkv
  cases l with
  | nil => rfl
  | cons a rest =>
    show conjunctionWalkArgs cat (mirror a :: mirrorList rest) col dkv
      = conjunctionWalkArgs cat (a :: rest) col dkv
    simp only [conjunctionWalkArgs]
    rw [walk_mirror cat col a dkv]
    rw [walkArgs_mirror cat col rest]

end

mutual

/-- Operand reversal preserves the count of variable references matching
any predicate. -/
theorem pull_mirror_count (p : Var → Bool) (n : Node) :
    (pull_var_clause_default (mirror n)).countP p
      = (pull_var_clause_default n).countP p := by
  cases n with
  | opExpr opno args =>
    match args with
    | [] => rfl
    | [a] => rfl
    | [a, b] =>
      show (pull_var_clause_default (Node.opExpr opno [b, a])).countP p
        = (pull_var_clause_default (Node.opExpr opno [a, b])).countP p
      simp only [pull_var_clause_default, pullVarsFromList, List.countP_append]
      omega
    | a :: b :: x :: rest => rfl
  | boolExpr bo args =>
    show (pull_var_clause_default (Node.boolExpr bo (mirrorList args))).countP p
      = (pull_var_clause_default (Node.boolExpr bo args)).countP p
    simp only [pull_var_clause_default]
    exact pull_mirror_count_list p args
  | nodeList items =>
    show (pull_var_clause_default (Node.nodeList (mirrorList items))).countP p
      = (pull_var_clause_default (Node.nodeList items)).countP p
    simp only [pull_var_clause_default]
    exact pull_mirror_count_list p items
  | var v => rfl
  | const c => rfl
  | param pp => rfl
  | other t => rfl

/-- List version of `pull_mirror_count`. -/
theorem pull_mirror_count_list (p : Var → Bool) (l : List Node) :
    (pullVarsFromList (mirrorList l)).countP p
      = (pullVarsFromList l).countP p := by
  cases l with
  | nil => rfl
  | cons a rest =>
    show (pullVarsFromList (mirror a :: mirrorList rest)).countP p
      = (pullVarsFromList (a :: rest)).countP p
    simp only [pullVarsFromList, List.countP_append]
    rw [pull_mirror_count p a, pull_mirror_count_list p rest]

end

/-- The duplicate-appearance check is invariant under operand reversal. -/
theorem columnAppears_mirror (n : Node) (dk : Var) :
    ColumnAppearsMultipleTimes (mirror n) dk = ColumnAppearsMultipleTimes n dk := by
  simp only [ColumnAppearsMultipleTimes]
  rw [pull_mirror_count]

/-- Normalization commutes with operand reversal on an implicit-AND
list. -/
theorem make_ands_explicit_mirror (items : List Node) :
    mirror (make_ands_explicit items) = make_ands_explicit (mirrorList items) := by
  match items with
  | [] => rfl
  | [a] => rfl
  | a :: b :: rest => rfl

/-- The quals normalization commutes with operand reversal. -/
theorem explicitQuals_mirror (qopt : Option Node) :
    explicitQuals (qopt.map mirror) = (explicitQuals qopt).map mirror := by
  cases qopt with
  | none => rfl
  | some n =>
    cases n with
    | nodeList items =>
      show explicitQuals (some (Node.nodeList (mirrorList items)))
        = (explicitQuals (some (Node.nodeList items))).map mirror
      show some (make_ands_explicit (mirrorList items))
        = some (mirror (make_ands_explicit items))
      rw [make_ands_explicit_mirror]
    | opExpr opno args =>
      match args with
      | [] => rfl
      | [a] => rfl
      | [a, b] => rfl
      | a :: b :: x :: rest => rfl
    | var v => rfl
    | const c => rfl
    | param p => rfl
    | boolExpr bo as => rfl
    | other t => rfl

/-- Absence of a qualifier tree is invariant under operand reversal. -/
theorem mapMirror_isNone (o : Option Node) : (o.map mirror).isNone = o.isNone := by
  cases o <;> rfl

/-- The whole filter analysis is invariant under operand reversal of the
raw quals. -/
theorem fastPathQualsCheck_mirror (cat : Catalog) (dkey : Var)
    (qopt : Option Node) :
    fastPathQualsCheck cat dkey (qopt.map mirror)
      = fastPathQualsCheck cat dkey qopt := by
  simp only [fastPathQualsCheck, explicitQuals_mirror]
  rcases hq : explicitQuals qopt with _ | w
  · rfl
  · show (if ((ConjunctionContainsColumnFilter cat (mirror w) dkey none).1 &&
          !ColumnAppearsMultipleTimes (mirror w) dkey) = true then
        (true, (ConjunctionContainsColumnFilter cat (mirror w) dkey none).2)
      else (false, (ConjunctionContainsColumnFilter cat (mirror w) dkey none).2))
      = _
    rw [walk_mirror cat dkey w, columnAppears_mirror w dkey]
    rfl

/-- C8 (confirmed): classification is symmetric in the operand order of
binary expressions — reversing the operands of every two-argument operator
expression in the WHERE clause (parameter or constant moved from one side
of the distribution column to the other) yields the same eligibility
verdict and the same recorded distribution-key value, for every query,
catalog and flag state. -/
theorem c8_operandOrderSymmetry (cat : Catalog) (enable : Bool) (q : Query)
    (jt : FromExpr) :
    FastPathRouterQuery cat enable
        { q with jointree := some { jt with quals := jt.quals.map mirror } }
      = FastPathRouterQuery cat enable { q with jointree := some jt } := by
  simp only [FastPathRouterQuery, CheckInsertSelectQuery, mapMirror_isNone,
    fastPathQualsCheck_mirror]

/-- C9 (confirmed): for an eligible query, the synthesized placeholder plan
has a relation-OID list with exactly one entry — the classified table's
catalog identifier —, a scan node with target relation index 1, a target
list equal to the query's effective output projection (hence the same
column count and order), no qualifier expressions, no child plan nodes, and
copies of the query's command kind, query identifier, statement length,
range table and RETURNING flag. -/
theorem c9_placeholderPlanSkeleton (cat : Catalog) (enable : Bool)
    (q : Query) (rte : RangeTblEntry)
    (_helig : (FastPathRouterQuery cat enable q).1 = true)
    (hrt : q.rtable = [rte]) :
    (GeneratePlaceHolderPlannedStmt q).relationOids = [rte.relid] ∧
    (GeneratePlaceHolderPlannedStmt q).planTree.scanrelid = 1 ∧
    (GeneratePlaceHolderPlannedStmt q).planTree.targetlist
      = FetchStatementTargetList q ∧
    (GeneratePlaceHolderPlannedStmt q).planTree.targetlist.length
      = (FetchStatementTargetList q).length ∧
    (GeneratePlaceHolderPlannedStmt q).planTree.qual = none ∧
    (GeneratePlaceHolderPlannedStmt q).planTree.lefttree = none ∧
    (GeneratePlaceHolderPlannedStmt q).planTree.righttree = none ∧
    (GeneratePlaceHolderPlannedStmt q).commandType = q.commandType ∧
    (GeneratePlaceHolderPlannedStmt q).queryId = q.queryId ∧
    (GeneratePlaceHolderPlannedStmt q).stmt_len = q.stmt_len ∧
    (GeneratePlaceHolderPlannedStmt q).rtable = q.rtable ∧
    (GeneratePlaceHolderPlannedStmt q).hasReturning
      = !q.returningList.isEmpty := by
  refine ⟨?_, rfl, rfl, rfl, rfl, rfl, rfl, rfl, rfl, rfl, rfl, rfl⟩
  simp [GeneratePlaceHolderPlannedStmt, ExtractFirstCitusTableId, hrt]

/-- C9 (witness): the skeleton invariant applied to the concrete eligible
empty-WHERE query on the reference table. -/
theorem c9_placeholderPlanSkeleton_witness :
    (FastPathRouterQuery exCatalog true (exSelect 2 none)).1 = true ∧
    ((GeneratePlaceHolderPlannedStmt (exSelect 2 none)).relationOids = [2] ∧
     (GeneratePlaceHolderPlannedStmt (exSelect 2 none)).planTree.scanrelid = 1 ∧
     (GeneratePlaceHolderPlannedStmt (exSelect 2 none)).planTree.targetlist
       = FetchStatementTargetList (exSelect 2 none) ∧
     (GeneratePlaceHolderPlannedStmt (exSelect 2 none)).planTree.targetlist.length
       = (FetchStatementTargetList (exSelect 2 none)).length ∧
     (GeneratePlaceHolderPlannedStmt (exSelect 2 none)).planTree.qual = none ∧
     (GeneratePlaceHolderPlannedStmt (exSelect 2 none)).planTree.lefttree = none ∧
     (GeneratePlaceHolderPlannedStmt (exSelect 2 none)).planTree.righttree = none ∧
     (GeneratePlaceHolderPlannedStmt (exSelect 2 none)).commandType
       = (exSelect 2 none).commandType ∧
     (GeneratePlaceHolderPlannedStmt (exSelect 2 none)).queryId
       = (exSelect 2 none).queryId ∧
     (GeneratePlaceHolderPlannedStmt (exSelect 2 none)).stmt_len
       = (exSelect 2 none).stmt_len ∧
     (GeneratePlaceHolderPlannedStmt (exSelect 2 none)).rtable
       = (exSelect 2 none).rtable ∧
     (GeneratePlaceHolderPlannedStmt (exSelect 2 none)).hasReturning
       = !(exSelect 2 none).returningList.isEmpty) :=
  ⟨rfl, c9_placeholderPlanSkeleton exCatalog true (exSelect 2 none)
    { rtekind := RTEKind.relation, relid := 2 } rfl rfl⟩

end Citus
